import Mathlib

/-!
Verification of the UIDAI biometric-update analytics toolkit.

The repository is a set of pandas-based scripts.  This file gives a shallow
embedding of the functions the claims are about:

* `scripts/data_cleaner.py` : `create_age_groups`, `handle_missing_values`,
  `create_biometric_quality_categories`;
* `scripts/data_loader.py`  : `load_enrolment_data`, `load_update_data`;
* `scripts/analyzer.py`     : `analyze_age_distribution`;
* `scripts/statistical_tests.py` : `anova_test_quality_by_age` (effect size),
  `detect_age_quality_anomalies`.

Numbers held in tables are modelled as rationals (the scripts do exact-looking
arithmetic on small decimal data; the only genuinely real-valued step is the
square root inside the standard deviation, modelled with `Real.sqrt`).
A missing value (pandas `NaN` used as such) is modelled as `Option.none`.
-/

/-! ## Bucketing (`pd.cut` with `right=False`)

`pd.cut(xs, bins, labels, include_lowest=True, right=False)` assigns to a
value `x` the label of the unique half-open interval `[bins[i], bins[i+1])`
containing it, and no label (`NaN`) when `x` lies outside every interval.
With `right=False` every interval is already left-closed, so
`include_lowest` has no further effect. -/

def pdCut (x : ℚ) : List ℚ → List String → Option String
  | b1 :: b2 :: bs, l :: ls =>
      if b1 ≤ x ∧ x < b2 then some l else pdCut x (b2 :: bs) ls
  | _, _ => none

/-- Default bins of `create_age_groups` (data_cleaner.py line 65). -/
def ageBins : List ℚ := [0, 6, 19, 41, 61, 120]

/-- Default labels of `create_age_groups` (data_cleaner.py lines 67-68). -/
def ageLabels : List String :=
  ["0-5 (Child)", "6-18 (Youth)", "19-40 (Young Adult)",
   "41-60 (Middle Age)", "60+ (Elderly)"]

/-- Per-value labelling performed by `create_age_groups` with default bins. -/
def ageGroupLabel (a : ℚ) : Option String := pdCut a ageBins ageLabels

/-- Bins of `create_biometric_quality_categories` (data_cleaner.py line 380). -/
def qualityBins : List ℚ := [0, 41, 61, 81, 101]

/-- Labels of `create_biometric_quality_categories` (data_cleaner.py line 381). -/
def qualityLabels : List String :=
  ["Poor (0-40)", "Fair (41-60)", "Good (61-80)", "Excellent (81-100)"]

/-- Per-value labelling performed by `create_biometric_quality_categories`. -/
def qualityCategoryLabel (q : ℚ) : Option String := pdCut q qualityBins qualityLabels

example : ageGroupLabel 6 = some "6-18 (Youth)" := by decide

example : (List.map ageGroupLabel [3, 10, 25, 45, 65]) =
    [some "0-5 (Child)", some "6-18 (Youth)", some "19-40 (Young Adult)",
     some "41-60 (Middle Age)", some "60+ (Elderly)"] := by decide

/-! ## Tables

A dataframe is a named list of columns over rows of cells.  A cell is either
missing (`none`, pandas `NaN`) or holds a number or a string. -/

inductive Val where
  | num (q : ℚ)
  | str (s : String)
deriving DecidableEq, Repr

abbrev Cell := Option Val

structure Table where
  header : List String
  rows : List (List Cell)
deriving DecidableEq, Repr

/-- Number of records, `len(df)`. -/
def Table.nRows (t : Table) : ℕ := t.rows.length

/-- Cell of row `r` in column number `j` (`none` = missing). -/
def cellAt (r : List Cell) (j : ℕ) : Cell := r.getD j none

/-- `df.isnull().sum()` for column number `j`. -/
def missingCount (t : Table) (j : ℕ) : ℕ :=
  t.rows.countP (fun r => decide (cellAt r j = none))

/-- Round to an integer, halves to even: the rule used by `numpy.round`
(the scripts round binary floats, where exact halves essentially never
arise; every concrete input used below is not a tie). -/
def roundHalfEven (x : ℚ) : ℤ :=
  let m := ⌊x⌋
  let f := x - m
  if f < 1/2 then m
  else if 1/2 < f then m + 1
  else if 2 ∣ m then m else m + 1

/-- `Series.round(2)`. -/
def round2 (q : ℚ) : ℚ := (roundHalfEven (q * 100) : ℚ) / 100

/-- `Missing_Percent` of column number `j`
(data_cleaner.py line 138: `(count / len(df) * 100).round(2)`). -/
def missingPercent (t : Table) (j : ℕ) : ℚ :=
  round2 ((missingCount t j : ℚ) / (t.nRows : ℚ) * 100)

/-- Whether `missing_stats` (restricted to columns with `Missing_Count > 0`)
is non-empty, i.e. whether the early `return df` at line 146 is skipped. -/
def hasMissing (t : Table) : Bool :=
  (List.range t.header.length).any (fun j => decide (0 < missingCount t j))

/-- Assign a column: `df[name] = cells` replaces an existing column of that
name and otherwise appends a new one on the right. -/
def setCol (t : Table) (name : String) (cells : List Cell) : Table :=
  match t.header.indexOf? name with
  | some i => ⟨t.header, (t.rows.zip cells).map (fun p => p.1.set i p.2)⟩
  | none => ⟨t.header ++ [name], (t.rows.zip cells).map (fun p => p.1 ++ [p.2])⟩

/-- `pd.cut` applied to one cell of the age column: a missing value stays
unlabelled, a numeric value is bucketed.  (A string cell would make
`pd.cut` raise; the verified claims only use numeric age columns, such a
cell is left unlabelled here.) -/
def cutCell (bins : List ℚ) (labels : List String) : Cell → Cell
  | some (Val.num q) => (pdCut q bins labels).map Val.str
  | _ => none

/-- data_cleaner.py `create_age_groups` (lines 61-94): if the age column is
absent, warn and return the input unchanged; otherwise attach the bucketed
column.  Custom bins/labels are fixed to the defaults used by the claims. -/
def create_age_groups (t : Table) (ageCol newCol : String) : Table :=
  if ageCol ∈ t.header then
    let i := t.header.indexOf ageCol
    setCol t newCol (t.rows.map (fun r => cutCell ageBins ageLabels (cellAt r i)))
  else t

/-- data_cleaner.py `create_biometric_quality_categories` (lines 342-395). -/
def create_biometric_quality_categories (t : Table) (qCol newCol : String) : Table :=
  if qCol ∈ t.header then
    let i := t.header.indexOf qCol
    setCol t newCol (t.rows.map (fun r => cutCell qualityBins qualityLabels (cellAt r i)))
  else t

/-! ## Missing-value handling (`handle_missing_values`, data_cleaner.py 97-187) -/

inductive Strategy where
  | report | drop_rows | drop_cols | fill_mode | fill_median
deriving DecidableEq, Repr

/-- Names of the columns dropped by the `drop_cols` strategy
(line 163): columns appearing in `missing_stats` (missing count `> 0`)
whose `Missing_Percent` strictly exceeds `threshold * 100`. -/
def colsToDrop (t : Table) (threshold : ℚ) : List String :=
  ((List.range t.header.length).filter (fun j =>
      decide (0 < missingCount t j) && decide (threshold * 100 < missingPercent t j))).map
    (fun j => t.header.getD j "")

/-- `df.drop(columns=names)`: remove every column whose name is listed. -/
def dropColumns (t : Table) (names : List String) : Table :=
  ⟨t.header.filter (fun n => !(names.contains n)),
   t.rows.map (fun r => (t.header.zip r).filterMap
     (fun p => if names.contains p.1 then none else some p.2))⟩

/-- The present (non-missing) cells of column number `j`. -/
def presentCells (t : Table) (j : ℕ) : List Val :=
  t.rows.filterMap (fun r => cellAt r j)

/-- Model of the pandas dtype test `select_dtypes(include=['object','category'])`:
a column holding at least one string. -/
def isObjectCol (t : Table) (j : ℕ) : Bool :=
  (presentCells t j).any (fun v => match v with | Val.str _ => true | _ => false)

/-- Model of `select_dtypes(include=[np.number])`: every present cell numeric. -/
def isNumericCol (t : Table) (j : ℕ) : Bool :=
  (presentCells t j).all (fun v => match v with | Val.num _ => true | _ => false)

/-- A fixed total order on cell values (numbers by magnitude, numbers before
strings, strings lexicographically); pandas sorts homogeneous columns the
same way and raises on mixed ones, which no verified claim exercises. -/
def valLE (a b : Val) : Bool :=
  match a, b with
  | Val.num x, Val.num y => decide (x ≤ y)
  | Val.num _, Val.str _ => true
  | Val.str _, Val.num _ => false
  | Val.str x, Val.str y => decide (x ≤ y)

def insertValSorted (v : Val) : List Val → List Val
  | [] => [v]
  | w :: ws => if valLE v w then v :: w :: ws else w :: insertValSorted v ws

def sortVals : List Val → List Val
  | [] => []
  | v :: vs => insertValSorted v (sortVals vs)

/-- `Series.mode()[0]` over the present cells: a most frequent value, the
least such in sort order (pandas returns the modes sorted). -/
def modeVal (vs : List Val) : Option Val :=
  (sortVals vs.dedup).foldl
    (fun best v =>
      match best with
      | none => some v
      | some b => if vs.count b < vs.count v then some v else best)
    none

def insertRatSorted (x : ℚ) : List ℚ → List ℚ
  | [] => [x]
  | y :: ys => if x ≤ y then x :: y :: ys else y :: insertRatSorted x ys

def sortRats : List ℚ → List ℚ
  | [] => []
  | x :: xs => insertRatSorted x (sortRats xs)

/-- `Series.median()` skipping missing values: middle of the sorted values,
mean of the two middles for an even count, `none` when no value is present. -/
def medianVal (xs : List ℚ) : Option ℚ :=
  let s := sortRats xs
  match s with
  | [] => none
  | _ =>
    if s.length % 2 = 1 then s.get? (s.length / 2)
    else do
      let a ← s.get? (s.length / 2 - 1)
      let b ← s.get? (s.length / 2)
      pure ((a + b) / 2)

/-- The numeric present cells of column number `j`. -/
def presentNums (t : Table) (j : ℕ) : List ℚ :=
  t.rows.filterMap (fun r =>
    match cellAt r j with | some (Val.num q) => some q | _ => none)

/-- Replace the missing cells of column number `j` by `v`. -/
def fillColumn (t : Table) (j : ℕ) (v : Val) : Table :=
  ⟨t.header,
   t.rows.map (fun r => if cellAt r j = none then r.set j (some v) else r)⟩

/-- One `fillna` pass of the `fill_mode` strategy over the object columns
(lines 173-177); fills with the mode, or the string `'Unknown'` when the
column has no present value at all. -/
def fillModeAll (t : Table) : Table :=
  (List.range t.header.length).foldl
    (fun acc j =>
      if isObjectCol acc j && decide (0 < missingCount acc j) then
        fillColumn acc j ((modeVal (presentCells acc j)).getD (Val.str "Unknown"))
      else acc)
    t

/-- The `fill_median` strategy over the numeric columns (lines 181-185);
a column with no present numeric value keeps its missing cells
(`fillna(NaN)` changes nothing). -/
def fillMedianAll (t : Table) : Table :=
  (List.range t.header.length).foldl
    (fun acc j =>
      if isNumericCol acc j && decide (0 < missingCount acc j) then
        match medianVal (presentNums acc j) with
        | some m => fillColumn acc j (Val.num m)
        | none => acc
      else acc)
    t

/-- data_cleaner.py `handle_missing_values` (lines 97-187).  The input is
copied (line 128); when no column has a missing value the copy is returned
unchanged (line 146); otherwise the selected strategy is applied. -/
def handle_missing_values (t : Table) (strategy : Strategy) (threshold : ℚ) : Table :=
  if !hasMissing t then t
  else
    match strategy with
    | Strategy.report => t
    | Strategy.drop_rows => ⟨t.header, t.rows.filter (fun r => !(r.contains none))⟩
    | Strategy.drop_cols =>
        let names := colsToDrop t threshold
        if names.isEmpty then t else dropColumns t names
    | Strategy.fill_mode => fillModeAll t
    | Strategy.fill_median => fillMedianAll t

/-! ## Age-distribution analysis (`analyze_age_distribution`, analyzer.py 20-72)

The function accesses `df[age_group_column]` without any presence check, so
pandas raises `KeyError` when the column is absent; modelled as `Except.error`.
On the happy path it returns the `value_counts` summary sorted by value with
percentages rounded to two decimals; `idxmax`/`idxmin` on an empty summary
(zero rows, or an all-missing column) raise `ValueError`. -/

structure AgeDistRow where
  value : Val
  count : ℕ
  percentage : ℚ
deriving DecidableEq, Repr

def analyze_age_distribution (t : Table) (col : String) :
    Except String (List AgeDistRow) :=
  if col ∈ t.header then
    let j := t.header.indexOf col
    let vals := presentCells t j
    let summary := (sortVals vals.dedup).map (fun v =>
      { value := v, count := vals.count v,
        percentage := round2 ((vals.count v : ℚ) / (t.nRows : ℚ) * 100) })
    if summary.isEmpty then
      Except.error "ValueError: attempt to get argmax of an empty sequence"
    else Except.ok summary
  else Except.error ("KeyError: " ++ col)

/-! ## Loading (`load_enrolment_data` / `load_update_data`, data_loader.py 21-100)

File contents are I/O and are abstracted away: the model records which reader
the loader dispatches to, or the `ValueError` raised for an unsupported
extension.  `Path.suffix` is the part of the final path component from its
last dot on, empty when that dot is the first character of the name or when
the name ends in the dot. -/

inductive LoadKind where
  | csv | excel
deriving DecidableEq, Repr

/-- `Path(file_path).name`: the part after the last slash. -/
def pathName (p : String) : List Char :=
  (p.toList.reverse.takeWhile (fun c => c ≠ '/')).reverse

/-- `Path(file_path).suffix`. -/
def pathSuffix (p : String) : String :=
  let n := pathName p
  let pre := n.reverse.takeWhile (fun c => c ≠ '.')
  if pre.length = n.length then ""            -- no dot in the name
  else if pre.length = 0 then ""              -- the name ends in the dot
  else if n.length - 1 - pre.length = 0 then "" -- the dot is the first char
  else String.mk ('.' :: pre.reverse)

/-- ASCII lower-casing; `str.lower()` differs only beyond ASCII, which no
file extension compared against here contains. -/
def asciiLowerChar (c : Char) : Char :=
  if 'A' ≤ c ∧ c ≤ 'Z' then Char.ofNat (c.toNat + 32) else c

def asciiLower (s : String) : String := String.mk (s.toList.map asciiLowerChar)

/-- Extension dispatch shared by both loaders (data_loader.py 50-55, 91-96). -/
def loadDispatch (p : String) : Except String LoadKind :=
  if asciiLower (pathSuffix p) = ".csv" then Except.ok LoadKind.csv
  else if asciiLower (pathSuffix p) = ".xlsx" ∨ asciiLower (pathSuffix p) = ".xls" then
    Except.ok LoadKind.excel
  else Except.error ("Unsupported file format: " ++ pathSuffix p)

/-- data_loader.py `load_enrolment_data` (lines 21-59). -/
def load_enrolment_data (p : String) : Except String LoadKind := loadDispatch p

/-- data_loader.py `load_update_data` (lines 62-100). -/
def load_update_data (p : String) : Except String LoadKind := loadDispatch p

example : load_enrolment_data "data/raw/enrolment_data.csv" = Except.ok LoadKind.csv := rfl
example : load_enrolment_data "a/b.XLSX" = Except.ok LoadKind.excel := rfl
example : (load_enrolment_data "a/b.txt").isOk = false := by decide
example : (load_enrolment_data "archive.csv.gz").isOk = false := by decide

/-! ## Statistical tests (statistical_tests.py)

For these functions a record is reduced to the two columns the code reads:
the grouping label (missing labels are dropped by `groupby` and by the inner
`merge`) and the quality score.  Scores are rationals; records with a missing
quality score are outside the verified claims and are not modelled. -/

structure DRow where
  group : Option String
  quality : ℚ
deriving DecidableEq, Repr

/-- The quality values of group `g`: `df.groupby(col)` restricted to key `g`. -/
def groupVals (rows : List DRow) (g : String) : List ℚ :=
  (rows.filter (fun r => r.group = some g)).map (fun r => r.quality)

/-- `Series.mean`. -/
def qmean (xs : List ℚ) : ℚ := xs.sum / (xs.length : ℚ)

/-- `Series.var` with the pandas default `ddof=1`. -/
def qvar (xs : List ℚ) : ℚ :=
  ((xs.map (fun x => (x - qmean xs) ^ 2)).sum) / ((xs.length : ℚ) - 1)

/-! ### `anova_test_quality_by_age` effect size (lines 177-181) -/

/-- `grand_mean = df[quality_column].mean()` over all records. -/
def grandMean (rows : List DRow) : ℚ := qmean (rows.map (fun r => r.quality))

/-- The distinct group keys, as produced by `groupby` (missing keys dropped;
the order is irrelevant to the sums below). -/
def groupKeys (rows : List DRow) : List String :=
  (rows.filterMap (fun r => r.group)).dedup

/-- `ss_between = sum(len(g) * (g.mean() - grand_mean)**2 for g in groups)`. -/
def ss_between (rows : List DRow) : ℚ :=
  ((groupKeys rows).map (fun g =>
    ((groupVals rows g).length : ℚ) * (qmean (groupVals rows g) - grandMean rows) ^ 2)).sum

/-- `ss_total = sum((df[quality_column] - grand_mean)**2)`. -/
def ss_total (rows : List DRow) : ℚ :=
  (rows.map (fun r => (r.quality - grandMean rows) ^ 2)).sum

/-- `eta_squared = ss_between / ss_total if ss_total > 0 else 0` (line 181). -/
def eta_squared (rows : List DRow) : ℚ :=
  if 0 < ss_total rows then ss_between rows / ss_total rows else 0

/-! ### `detect_age_quality_anomalies` (lines 447-534) -/

/-- `groupby(col)[quality].agg(['std'])`: sample standard deviation of a
group, `NaN` (here `none`) for a group with fewer than two members. -/
noncomputable def gstd (xs : List ℚ) : Option ℝ :=
  if xs.length ≤ 1 then none else some (Real.sqrt (qvar xs))

/-- `z_score = (quality - group_mean) / group_std` (line 500).  A `none`
standard deviation is `NaN` and propagates.  When the deviation is `0` the
member's numerator is also `0` (a zero-variance group is constant), and
`0.0 / 0.0` is `NaN`: modelled as `none` as well. -/
noncomputable def zscore (rows : List DRow) (g : String) (q : ℚ) : Option ℝ :=
  match gstd (groupVals rows g) with
  | none => none
  | some s =>
      if s = 0 then none
      else some (((q : ℝ) - (qmean (groupVals rows g) : ℝ)) / s)

inductive AType where
  | normal | high | low
deriving DecidableEq, Repr

/-- `is_anomaly = np.abs(z_score) > threshold_std` (line 503); every
comparison against `NaN` is false. -/
def zIsAnomaly : Option ℝ → ℝ → Prop
  | none, _ => False
  | some z, t => |z| > t

/-- `anomaly_type` (lines 504-506): `'Normal'`, overwritten by
`'Unusually High Quality'` where `z > t`, then by
`'Unusually Low Quality'` where `z < -t`. -/
noncomputable def zType (z : Option ℝ) (t : ℝ) : AType :=
  match z with
  | none => AType.normal
  | some z =>
      open scoped Classical in
      if z < -t then AType.low
      else if z > t then AType.high
      else AType.normal

/-- One record of the merged table returned by the detector. -/
structure ORow where
  group : String
  quality : ℚ
  z_score : Option ℝ
  is_anomaly : Prop
  anomaly_type : AType

noncomputable def detectRow (rows : List DRow) (t : ℝ) (g : String) (q : ℚ) : ORow :=
  let z := zscore rows g q
  ⟨g, q, z, zIsAnomaly z t, zType z t⟩

structure AStats where
  total_records : ℕ
  n_anomalies : ℕ
  anomaly_rate : ℝ
  n_unusually_high : ℕ
  n_unusually_low : ℕ
  threshold_std : ℝ

/-- The merged table `df.merge(group_stats, on=age_group_column)` with the
derived columns: the inner merge drops records with a missing group label,
every other record is paired with its group's statistics. -/
noncomputable def detectMerged (rows : List DRow) (t : ℝ) : List ORow :=
  rows.filterMap (fun r => r.group.map (fun g => detectRow rows t g r.quality))

/-- statistical_tests.py `detect_age_quality_anomalies` (lines 447-534):
group statistics, inner merge, per-record z-scores and flags, and summary
counts. -/
noncomputable def detect_age_quality_anomalies (rows : List DRow) (t : ℝ) :
    List ORow × AStats :=
  (detectMerged rows t,
   { total_records := (detectMerged rows t).length,
     n_anomalies :=
       open scoped Classical in
       (detectMerged rows t).countP (fun r => decide r.is_anomaly),
     anomaly_rate :=
       open scoped Classical in
       (((detectMerged rows t).countP (fun r => decide r.is_anomaly) : ℝ) /
          ((detectMerged rows t).length : ℝ)) * 100,
     n_unusually_high :=
       (detectMerged rows t).countP (fun r => decide (r.anomaly_type = AType.high)),
     n_unusually_low :=
       (detectMerged rows t).countP (fun r => decide (r.anomaly_type = AType.low)),
     threshold_std := t })

/-! ## Concrete instances used by the witnesses and counterexamples -/

/-- A table whose `Age` column is `[3, 10, 25, 45, 65]`. -/
def tAges : Table :=
  ⟨["Age"],
   [[some (Val.num 3)], [some (Val.num 10)], [some (Val.num 25)],
    [some (Val.num 45)], [some (Val.num 65)]]⟩

/-- A table whose quality column is `[35, 55, 75, 95]`. -/
def tQual : Table :=
  ⟨["Biometric_Quality_Score"],
   [[some (Val.num 35)], [some (Val.num 55)], [some (Val.num 75)], [some (Val.num 95)]]⟩

/-- Three records, column `A` missing in exactly one of them (missing
fraction `1/3`), column `B` fully present. -/
def tThird : Table :=
  ⟨["A", "B"],
   [[none, some (Val.num 1)],
    [some (Val.num 1), some (Val.num 2)],
    [some (Val.num 2), some (Val.num 3)]]⟩

/-- A table without an `Age_Group` column. -/
def tNoAge : Table := ⟨["X"], [[some (Val.num 30)]]⟩

/-- Two records, column `A` missing in one of them (missing fraction `1/2`),
column `B` fully present. -/
def tHalf : Table :=
  ⟨["A", "B"],
   [[none, some (Val.num 1)],
    [some (Val.num 1), some (Val.num 2)]]⟩

/-- Records whose quality scores are all equal: zero total sum of squares. -/
def rowsConst : List DRow := [⟨some "A", 50⟩, ⟨some "B", 50⟩]

/-- A singleton group `A` next to a two-element group `B`. -/
def rowsSingleton : List DRow := [⟨some "A", 50⟩, ⟨some "B", 10⟩, ⟨some "B", 20⟩]

/-- One group of 15 records with mean `50` and sample standard deviation `5`,
containing the value `65` (z-score `3`): the values `65, 40, 45` and twelve
times `50`. -/
def rows15 : List DRow :=
  ⟨some "G", 65⟩ :: ⟨some "G", 40⟩ :: ⟨some "G", 45⟩ :: List.replicate 12 ⟨some "G", 50⟩

/-! ## Theorems -/

/-- C1: every age in `[0, 120)` receives exactly one of the five default
labels under `create_age_groups` (the labelling is a function, so the label
is unique), and the boundary value `6` falls in the second, left-inclusive
bucket `6-18 (Youth)`. -/
theorem create_age_groups_total_on_range :
    (∀ a : ℚ, 0 ≤ a → a < 120 → ∃ l, ageGroupLabel a = some l ∧ l ∈ ageLabels) ∧
    ageLabels.length = 5 ∧ ageGroupLabel 6 = some "6-18 (Youth)" := by
  refine ⟨?_, by decide, by decide⟩
  intro a h0 h120
  simp only [ageGroupLabel, ageBins, ageLabels, pdCut]
  split_ifs with h1 h2 h3 h4 h5
  · exact ⟨"0-5 (Child)", rfl, by simp⟩
  · exact ⟨"6-18 (Youth)", rfl, by simp⟩
  · exact ⟨"19-40 (Young Adult)", rfl, by simp⟩
  · exact ⟨"41-60 (Middle Age)", rfl, by simp⟩
  · exact ⟨"60+ (Elderly)", rfl, by simp⟩
  · exfalso
    push_neg at h1 h2 h3 h4 h5
    have h6 := h1 h0
    have h19 := h2 (by linarith)
    have h41 := h3 (by linarith)
    have h61 := h4 (by linarith)
    have := h5 (by linarith)
    linarith

/-- Witness for C1 at the concrete age `7/2`. -/
theorem create_age_groups_total_on_range_witness :
    ((0 : ℚ) ≤ 7/2 ∧ (7/2 : ℚ) < 120) ∧
    ∃ l, ageGroupLabel (7/2) = some l ∧ l ∈ ageLabels :=
  ⟨⟨by norm_num, by norm_num⟩,
   create_age_groups_total_on_range.1 (7/2) (by norm_num) (by norm_num)⟩

/-- C7: on a table whose `Age` column is `[3, 10, 25, 45, 65]`,
`create_age_groups` appends an `Age_Group` column with exactly the five
default labels in order, and `create_biometric_quality_categories` labels
the scores `[35, 55, 75, 95]` with the four quality categories. -/
theorem bucketing_examples :
    (create_age_groups tAges "Age" "Age_Group").header = ["Age", "Age_Group"] ∧
    (create_age_groups tAges "Age" "Age_Group").rows.map (fun r => cellAt r 1) =
      [some (Val.str "0-5 (Child)"), some (Val.str "6-18 (Youth)"),
       some (Val.str "19-40 (Young Adult)"), some (Val.str "41-60 (Middle Age)"),
       some (Val.str "60+ (Elderly)")] ∧
    (create_biometric_quality_categories tQual "Biometric_Quality_Score"
        "Quality_Category").rows.map (fun r => cellAt r 1) =
      [some (Val.str "Poor (0-40)"), some (Val.str "Fair (41-60)"),
       some (Val.str "Good (61-80)"), some (Val.str "Excellent (81-100)")] := by
  refine ⟨by decide, by decide, by decide⟩

/-- C6: the `report` strategy returns the (copy of the) input unchanged; in
particular the record count and the column count are preserved.  In this pure
embedding the input value itself is of course never modified. -/
theorem handle_missing_values_report_id (t : Table) (th : ℚ) :
    handle_missing_values t Strategy.report th = t ∧
    (handle_missing_values t Strategy.report th).nRows = t.nRows ∧
    (handle_missing_values t Strategy.report th).header.length = t.header.length := by
  have h : handle_missing_values t Strategy.report th = t := by
    unfold handle_missing_values
    split <;> rfl
  exact ⟨h, by rw [h], by rw [h]⟩

/-- C9: in `anova_test_quality_by_age`, a zero total sum of squares yields a
zero eta-squared effect size, and otherwise eta-squared is the between-group
sum of squares over the total sum of squares. -/
theorem anova_eta_squared_spec (rows : List DRow) :
    (ss_total rows = 0 → eta_squared rows = 0) ∧
    (0 < ss_total rows → eta_squared rows = ss_between rows / ss_total rows) := by
  constructor
  · intro h
    simp [eta_squared, h]
  · intro h
    simp [eta_squared, h]

/-- Witness for C9 on a table with constant quality scores. -/
theorem anova_eta_squared_spec_witness :
    ss_total rowsConst = 0 ∧ eta_squared rowsConst = 0 := by
  have h : ss_total rowsConst = 0 := by
    norm_num [ss_total, rowsConst, grandMean, qmean]
  exact ⟨h, (anova_eta_squared_spec rowsConst).1 h⟩

/-- C8: both loaders dispatch on the case-insensitive file extension: `.csv`
loads as CSV, `.xlsx` and `.xls` load as Excel, and the unsupported-format
failure is raised exactly for every other extension. -/
theorem loader_extension_dispatch (p : String) :
    (asciiLower (pathSuffix p) = ".csv" →
      load_enrolment_data p = Except.ok LoadKind.csv ∧
      load_update_data p = Except.ok LoadKind.csv) ∧
    ((asciiLower (pathSuffix p) = ".xlsx" ∨ asciiLower (pathSuffix p) = ".xls") →
      load_enrolment_data p = Except.ok LoadKind.excel ∧
      load_update_data p = Except.ok LoadKind.excel) ∧
    ((∃ e, load_enrolment_data p = Except.error e) ↔
      asciiLower (pathSuffix p) ∉ [".csv", ".xlsx", ".xls"]) ∧
    ((∃ e, load_update_data p = Except.error e) ↔
      asciiLower (pathSuffix p) ∉ [".csv", ".xlsx", ".xls"]) := by
  unfold load_enrolment_data load_update_data loadDispatch
  split_ifs with h1 h2 <;> simp_all

/-- Witness for C8 at a mixed-case Excel path. -/
theorem loader_extension_dispatch_witness :
    (asciiLower (pathSuffix "a/B.Xlsx") = ".xlsx" ∨
     asciiLower (pathSuffix "a/B.Xlsx") = ".xls") ∧
    (load_enrolment_data "a/B.Xlsx" = Except.ok LoadKind.excel ∧
     load_update_data "a/B.Xlsx" = Except.ok LoadKind.excel) :=
  ⟨by decide, (loader_extension_dispatch "a/B.Xlsx").2.1 (by decide)⟩

/-- C4, counterexample: `analyze_age_distribution` reads the grouping column
with no presence check, so on a table without that column it raises
(`KeyError`), contradicting the claim that an absent column never produces a
hard failure. -/
theorem analyze_age_distribution_missing_column_cex :
    analyze_age_distribution tNoAge "Age_Group" =
      Except.error "KeyError: Age_Group" := by
  simp [analyze_age_distribution, tNoAge]

/-- C4, amended: the cleaner operations check for the named column and return
the input unchanged when it is absent, but `analyze_age_distribution`
accesses the column unconditionally and raises `KeyError` when it is absent. -/
theorem missing_column_behavior :
    (∀ t c nc, c ∉ t.header → create_age_groups t c nc = t) ∧
    (∀ t c nc, c ∉ t.header → create_biometric_quality_categories t c nc = t) ∧
    (∀ t c, c ∉ t.header →
      analyze_age_distribution t c = Except.error ("KeyError: " ++ c)) := by
  refine ⟨?_, ?_, ?_⟩
  · intro t c nc h
    simp [create_age_groups, h]
  · intro t c nc h
    simp [create_biometric_quality_categories, h]
  · intro t c h
    simp [analyze_age_distribution, h]

/-- Unfolding lemma: the `drop_cols` strategy either returns the input (no
missing values anywhere, or no column above the threshold) or drops the
selected columns. -/
theorem handle_drop_cols_eq (t : Table) (th : ℚ) :
    handle_missing_values t Strategy.drop_cols th =
      if hasMissing t then
        (if (colsToDrop t th).isEmpty then t else dropColumns t (colsToDrop t th))
      else t := by
  unfold handle_missing_values
  cases hasMissing t <;> simp

/-- Membership in the dropped-column list, for a table without duplicate
column names. -/
theorem mem_colsToDrop_iff (t : Table) (th : ℚ) (hnd : t.header.Nodup)
    (j : ℕ) (hj : j < t.header.length) :
    t.header.get ⟨j, hj⟩ ∈ colsToDrop t th ↔
      (0 < missingCount t j ∧ th * 100 < missingPercent t j) := by
  unfold colsToDrop
  constructor
  · intro hmem
    rcases List.mem_map.mp hmem with ⟨i, hif, hgx⟩
    rcases List.mem_filter.mp hif with ⟨hir, hPi⟩
    have hi : i < t.header.length := List.mem_range.mp hir
    rw [List.getD_eq_getElem t.header "" hi] at hgx
    have hij : i = j := by
      have h2 := (List.Nodup.get_inj_iff hnd).mp
        (show t.header.get ⟨i, hi⟩ = t.header.get ⟨j, hj⟩ by
          rw [List.get_eq_getElem]; exact hgx)
      exact congrArg Fin.val h2
    subst hij
    simpa [Bool.and_eq_true, decide_eq_true_eq] using hPi
  · intro hP
    apply List.mem_map.mpr
    refine ⟨j, List.mem_filter.mpr ⟨List.mem_range.mpr hj, ?_⟩, ?_⟩
    · simp [hP.1, hP.2]
    · rw [List.getD_eq_getElem t.header "" hj, List.get_eq_getElem]

/-- When no column has a missing value, every per-column missing count is 0. -/
theorem missingCount_eq_zero_of_not_hasMissing (t : Table)
    (hm : hasMissing t = false) (j : ℕ) (hj : j < t.header.length) :
    missingCount t j = 0 := by
  by_contra hne
  have hpos : 0 < missingCount t j := Nat.pos_of_ne_zero hne
  have : hasMissing t = true :=
    List.any_eq_true.mpr ⟨j, List.mem_range.mpr hj, by simpa using hpos⟩
  rw [this] at hm
  cases hm

/-- C2, counterexample: with 3 records and one missing value in column `A`
(missing fraction `1/3`) and threshold `0.3333`, the fraction strictly
exceeds the threshold, yet `drop_cols` keeps the column: the code compares
the percentage rounded to two decimals (`33.33`) with `33.33` and finds no
strict excess. -/
theorem handle_missing_values_drop_cols_rounding_cex :
    (0 ≤ (3333 : ℚ)/10000 ∧ (3333 : ℚ)/10000 ≤ 1) ∧
    (missingCount tThird 0 : ℚ) / (tThird.nRows : ℚ) > 3333/10000 ∧
    handle_missing_values tThird Strategy.drop_cols (3333/10000) = tThird ∧
    "A" ∈ (handle_missing_values tThird Strategy.drop_cols (3333/10000)).header := by
  have hP : missingPercent tThird 0 = 3333/100 := by
    have hc : missingCount tThird 0 = 1 := by decide
    have hn : tThird.nRows = 3 := rfl
    rw [missingPercent, hc, hn, round2, roundHalfEven]
    norm_num
  have hq0 : ¬ ((3333 : ℚ)/10000 * 100 < missingPercent tThird 0) := by
    rw [hP]; norm_num
  have hq1 : missingCount tThird 1 = 0 := by decide
  have hdrop : colsToDrop tThird (3333/10000) = [] := by
    have hr : List.range tThird.header.length = [0, 1] := rfl
    rw [colsToDrop, hr]
    simp [List.filter_cons, hq0, hq1]
  have hmain : handle_missing_values tThird Strategy.drop_cols (3333/10000) = tThird := by
    rw [handle_drop_cols_eq, hdrop]
    simp
  refine ⟨by norm_num, ?_, hmain, ?_⟩
  · have hc : missingCount tThird 0 = 1 := by decide
    rw [hc]
    norm_num [tThird, Table.nRows]
  · rw [hmain]
    decide

/-- C2, amended: for a table without duplicate column names, `drop_cols`
keeps a column exactly when it is not the case that the column has at least
one missing value and its missing percentage, rounded to two decimal places,
strictly exceeds `threshold * 100`.  (For thresholds and fractions at which
the two-decimal rounding is the identity this coincides with the claim;
the counterexample above shows the difference elsewhere.) -/
theorem handle_missing_values_drop_cols_exact (t : Table) (th : ℚ)
    (hnd : t.header.Nodup) (j : ℕ) (hj : j < t.header.length) :
    (t.header.get ⟨j, hj⟩ ∈ (handle_missing_values t Strategy.drop_cols th).header ↔
      ¬(0 < missingCount t j ∧ th * 100 < missingPercent t j)) := by
  have hmem : t.header.get ⟨j, hj⟩ ∈ t.header := List.get_mem ..
  rw [handle_drop_cols_eq]
  cases hm : hasMissing t with
  | false =>
    simp only [if_false, Bool.false_eq_true, if_neg]
    have hmc := missingCount_eq_zero_of_not_hasMissing t hm j hj
    constructor
    · intro _
      rintro ⟨h0, -⟩
      rw [hmc] at h0
      exact absurd h0 (by norm_num)
    · intro _
      exact hmem
  | true =>
    simp only [if_pos]
    by_cases hdj : (0 < missingCount t j ∧ th * 100 < missingPercent t j)
    · have hin : t.header.get ⟨j, hj⟩ ∈ colsToDrop t th :=
        (mem_colsToDrop_iff t th hnd j hj).mpr hdj
      have hne : (colsToDrop t th).isEmpty = false := by
        cases hc : colsToDrop t th with
        | nil => rw [hc] at hin; cases hin
        | cons a l => rfl
      rw [hne]
      rw [List.get_eq_getElem] at hin
      simp only [Bool.false_eq_true, if_false, dropColumns, List.mem_filter]
      constructor
      · rintro ⟨-, hnc⟩
        simp [hin] at hnc
      · intro hcontra
        exact absurd hdj hcontra
    · have hnin : t.header.get ⟨j, hj⟩ ∉ colsToDrop t th := fun hc =>
        hdj ((mem_colsToDrop_iff t th hnd j hj).mp hc)
      cases hc : (colsToDrop t th).isEmpty with
      | true => simp [hdj, hmem]
      | false =>
        simp only [Bool.false_eq_true, if_false, dropColumns, List.mem_filter]
        constructor
        · intro _
          exact hdj
        · intro _
          rw [List.get_eq_getElem] at hnin
          exact ⟨hmem, by simp [hnin]⟩

/-- Witness for the amended C2: with 2 records, a half-missing column `A`
and threshold `0.3`, the column is dropped. -/
theorem handle_missing_values_drop_cols_exact_witness :
    tHalf.header.Nodup ∧
    ("A" ∈ (handle_missing_values tHalf Strategy.drop_cols (3/10)).header ↔
      ¬(0 < missingCount tHalf 0 ∧ (3/10 : ℚ) * 100 < missingPercent tHalf 0)) := by
  have hnd : tHalf.header.Nodup := by decide
  refine ⟨hnd, ?_⟩
  have h := handle_missing_values_drop_cols_exact tHalf (3/10) hnd 0 (by decide)
  simpa using h

/-- A record's anomaly flag holds exactly when its type is not `Normal`:
comparison against an undefined (`NaN`) z-score is false in both columns,
and for a real z-score the three interval cases agree. -/
theorem zIsAnomaly_iff_zType_ne (z : Option ℝ) (t : ℝ) :
    zIsAnomaly z t ↔ zType z t ≠ AType.normal := by
  cases z with
  | none => simp [zIsAnomaly, zType]
  | some z =>
    simp only [zIsAnomaly, zType]
    split_ifs with h1 h2
    · simp only [ne_eq]
      constructor
      · intro _
        decide
      · intro _
        have : -z > t := by linarith
        calc t < -z := this
          _ ≤ |z| := neg_le_abs z
    · simp only [ne_eq]
      constructor
      · intro _
        decide
      · intro _
        exact lt_of_lt_of_le h2 (le_abs_self z)
    · simp only [ne_eq, not_true_eq_false, iff_false, not_lt, gt_iff_lt, not_not]
      push_neg at h1 h2
      calc |z| ≤ t := abs_le.mpr ⟨by linarith, h2⟩

/-- Every row of the merged table produced by the detector is `detectRow`
of a source record with a present group label. -/
theorem mem_detect_iff (rows : List DRow) (t : ℝ) (o : ORow) :
    o ∈ (detect_age_quality_anomalies rows t).1 ↔
      ∃ r ∈ rows, ∃ g, r.group = some g ∧ o = detectRow rows t g r.quality := by
  unfold detect_age_quality_anomalies detectMerged
  simp only [List.mem_filterMap]
  constructor
  · rintro ⟨r, hr, hf⟩
    cases hg : r.group with
    | none => rw [hg] at hf; cases hf
    | some g =>
      rw [hg] at hf
      simp only [Option.map_some'] at hf
      exact ⟨r, hr, g, hg, (Option.some.inj hf).symm⟩
  · rintro ⟨r, hr, g, hg, ho⟩
    exact ⟨r, hr, by rw [hg, ho]; rfl⟩

/-- C3: a record whose group has exactly one member is never flagged: its
row in the detector's output has `is_anomaly` false and `anomaly_type`
`Normal`, for every threshold (the group standard deviation is undefined,
so its z-score is `NaN` and every comparison is false). -/
theorem detect_singleton_group_normal (rows : List DRow) (t : ℝ) (r : DRow)
    (g : String) (h1 : r ∈ rows) (hg : r.group = some g)
    (h2 : (groupVals rows g).length = 1) :
    detectRow rows t g r.quality ∈ (detect_age_quality_anomalies rows t).1 ∧
    ¬ (detectRow rows t g r.quality).is_anomaly ∧
    (detectRow rows t g r.quality).anomaly_type = AType.normal := by
  have hz : zscore rows g r.quality = none := by
    unfold zscore gstd
    rw [h2]
    simp
  refine ⟨(mem_detect_iff rows t _).mpr ⟨r, h1, g, hg, rfl⟩, ?_, ?_⟩
  · simp [detectRow, hz, zIsAnomaly]
  · simp [detectRow, hz, zType]

/-- Witness for C3: the singleton group `A` next to a two-element group. -/
theorem detect_singleton_group_normal_witness :
    (⟨some "A", 50⟩ : DRow) ∈ rowsSingleton ∧
    (groupVals rowsSingleton "A").length = 1 ∧
    ¬ (detectRow rowsSingleton 2 "A" 50).is_anomaly ∧
    (detectRow rowsSingleton 2 "A" 50).anomaly_type = AType.normal := by
  have h := detect_singleton_group_normal rowsSingleton 2 ⟨some "A", 50⟩ "A"
    (by decide) rfl (by decide)
  exact ⟨by decide, by decide, h.2.1, h.2.2⟩

/-- Counting rows with a non-`Normal` type splits into the high and low
counts, since the three type values are exhaustive and disjoint. -/
theorem countP_type_split (l : List ORow) :
    l.countP (fun r => decide (r.anomaly_type ≠ AType.normal)) =
      l.countP (fun r => decide (r.anomaly_type = AType.high)) +
      l.countP (fun r => decide (r.anomaly_type = AType.low)) := by
  induction l with
  | nil => simp
  | cons a l ih =>
    rw [List.countP_cons, List.countP_cons, List.countP_cons, ih]
    cases h : a.anomaly_type <;> simp [h] <;> omega

open scoped Classical in
/-- C10: in the detector's output every record satisfies
`is_anomaly ↔ anomaly_type ≠ 'Normal'`, and consequently the reported
`n_anomalies` equals `n_unusually_high + n_unusually_low`. -/
theorem anomaly_flag_type_consistency (rows : List DRow) (t : ℝ) :
    (∀ o ∈ (detect_age_quality_anomalies rows t).1,
        (o.is_anomaly ↔ o.anomaly_type ≠ AType.normal)) ∧
    (detect_age_quality_anomalies rows t).2.n_anomalies =
      (detect_age_quality_anomalies rows t).2.n_unusually_high +
      (detect_age_quality_anomalies rows t).2.n_unusually_low := by
  have hpt : ∀ o ∈ (detect_age_quality_anomalies rows t).1,
      (o.is_anomaly ↔ o.anomaly_type ≠ AType.normal) := by
    intro o ho
    rcases (mem_detect_iff rows t o).mp ho with ⟨r, hr, g, hg, rfl⟩
    simpa [detectRow] using zIsAnomaly_iff_zType_ne (zscore rows g r.quality) t
  refine ⟨hpt, ?_⟩
  have hA : (detect_age_quality_anomalies rows t).2.n_anomalies =
      (detect_age_quality_anomalies rows t).1.countP (fun r => decide r.is_anomaly) := rfl
  have hH : (detect_age_quality_anomalies rows t).2.n_unusually_high =
      (detect_age_quality_anomalies rows t).1.countP
        (fun r => decide (r.anomaly_type = AType.high)) := rfl
  have hL : (detect_age_quality_anomalies rows t).2.n_unusually_low =
      (detect_age_quality_anomalies rows t).1.countP
        (fun r => decide (r.anomaly_type = AType.low)) := rfl
  rw [hA, hH, hL]
  have hc : (detect_age_quality_anomalies rows t).1.countP (fun r => decide r.is_anomaly) =
      (detect_age_quality_anomalies rows t).1.countP
        (fun r => decide (r.anomaly_type ≠ AType.normal)) := by
    apply List.countP_congr
    intro o ho
    simpa using hpt o ho
  rw [hc, countP_type_split]

/-- Witness for C10 at the 15-record table and threshold 2. -/
theorem anomaly_flag_type_consistency_witness :
    (detectRow rows15 2 "G" 65) ∈ (detect_age_quality_anomalies rows15 2).1 ∧
    ((detectRow rows15 2 "G" 65).is_anomaly ↔
      (detectRow rows15 2 "G" 65).anomaly_type ≠ AType.normal) := by
  have hmem : detectRow rows15 2 "G" 65 ∈ (detect_age_quality_anomalies rows15 2).1 :=
    (mem_detect_iff rows15 2 _).mpr ⟨⟨some "G", 65⟩, by decide, "G", rfl, rfl⟩
  exact ⟨hmem, (anomaly_flag_type_consistency rows15 2).1 _ hmem⟩

/-- Group statistics of the 15-record table: the values of group `G`. -/
theorem rows15_groupVals :
    groupVals rows15 "G" = 65 :: 40 :: 45 :: List.replicate 12 50 := by decide

/-- Group `G` of the 15-record table has mean 50. -/
theorem rows15_mean : qmean (groupVals rows15 "G") = 50 := by
  rw [rows15_groupVals]
  unfold qmean
  simp [List.sum_replicate]
  norm_num

/-- Group `G` of the 15-record table has sample variance 25. -/
theorem rows15_var : qvar (groupVals rows15 "G") = 25 := by
  have hm := rows15_mean
  rw [rows15_groupVals] at hm ⊢
  unfold qvar
  rw [hm]
  simp [List.map_replicate, List.sum_replicate]
  norm_num

/-- Group `G` of the 15-record table has sample standard deviation 5. -/
theorem rows15_std : gstd (groupVals rows15 "G") = some 5 := by
  unfold gstd
  rw [rows15_var]
  rw [if_neg (by rw [rows15_groupVals]; simp)]
  rw [show ((25:ℚ):ℝ) = (5:ℝ)^2 by norm_num]
  rw [Real.sqrt_sq (by norm_num)]

/-- The record with value 65 in group `G` has z-score 3. -/
theorem rows15_zscore : zscore rows15 "G" 65 = some 3 := by
  unfold zscore
  rw [rows15_std]
  simp only
  rw [if_neg (by norm_num)]
  rw [rows15_mean]
  norm_num

/-- C5: on the 15-record table whose single group has mean 50 and standard
deviation 5, the record with value 65 (z-score 3) is labelled
`Unusually High Quality` at threshold 2 and `Normal` at threshold 4; and in
general a record with a defined z-score `z` is flagged anomalous exactly
when `|z|` exceeds the threshold, with the sign of `z` deciding high
versus low. -/
theorem zscore_anomaly_threshold_spec :
    gstd (groupVals rows15 "G") = some 5 ∧
    qmean (groupVals rows15 "G") = 50 ∧
    zscore rows15 "G" 65 = some 3 ∧
    ((detect_age_quality_anomalies rows15 2).1.head?.map
        (fun o => o.anomaly_type)) = some AType.high ∧
    ((detect_age_quality_anomalies rows15 4).1.head?.map
        (fun o => o.anomaly_type)) = some AType.normal ∧
    (∀ (rows : List DRow) (t : ℝ) (g : String) (q : ℚ) (z : ℝ), 0 ≤ t →
      zscore rows g q = some z →
      (((detectRow rows t g q).is_anomaly ↔ |z| > t) ∧
       ((detectRow rows t g q).anomaly_type = AType.high ↔ z > t) ∧
       ((detectRow rows t g q).anomaly_type = AType.low ↔ z < -t))) := by
  have hhead : ∀ t : ℝ, (detect_age_quality_anomalies rows15 t).1.head? =
      some (detectRow rows15 t "G" 65) := by
    intro t
    have h1 : (detect_age_quality_anomalies rows15 t).1 = detectMerged rows15 t := rfl
    rw [h1]
    unfold detectMerged rows15
    simp only [List.filterMap_cons, Option.map_some']
    rfl
  have htype : ∀ t : ℝ, (detectRow rows15 t "G" 65).anomaly_type =
      zType (some 3) t := by
    intro t
    show zType (zscore rows15 "G" 65) t = _
    rw [rows15_zscore]
  refine ⟨rows15_std, rows15_mean, rows15_zscore, ?_, ?_, ?_⟩
  · rw [hhead 2, Option.map_some', htype 2]
    simp only [zType]
    rw [if_neg (by norm_num), if_pos (by norm_num)]
  · rw [hhead 4, Option.map_some', htype 4]
    simp only [zType]
    rw [if_neg (by norm_num), if_neg (by norm_num)]
  · intro rows t g q z ht hz
    refine ⟨?_, ?_, ?_⟩
    · show zIsAnomaly (zscore rows g q) t ↔ |z| > t
      rw [hz]
      exact Iff.rfl
    · show zType (zscore rows g q) t = AType.high ↔ z > t
      rw [hz]
      simp only [zType]
      split_ifs with h1 h2
      · exact iff_of_false (by simp) (by linarith)
      · exact iff_of_true rfl h2
      · exact iff_of_false (by simp) h2
    · show zType (zscore rows g q) t = AType.low ↔ z < -t
      rw [hz]
      simp only [zType]
      split_ifs with h1 h2
      · exact iff_of_true rfl h1
      · exact iff_of_false (by simp) h1
      · exact iff_of_false (by simp) h1

/-- Witness for C5's general clause at the concrete record with z-score 3. -/
theorem zscore_anomaly_threshold_spec_witness :
    (0:ℝ) ≤ 2 ∧ zscore rows15 "G" 65 = some 3 ∧
    ((detectRow rows15 2 "G" 65).is_anomaly ↔ |(3:ℝ)| > 2) := by
  have hz3 := zscore_anomaly_threshold_spec.2.2.1
  exact ⟨by norm_num, hz3,
    (zscore_anomaly_threshold_spec.2.2.2.2.2 rows15 2 "G" 65 3 (by norm_num) hz3).1⟩

/-- Witness for the amended C4 on a concrete table without the column. -/
theorem missing_column_behavior_witness :
    "Age_Group" ∉ tNoAge.header ∧
    create_age_groups tNoAge "Age_Group" "AG" = tNoAge ∧
    create_biometric_quality_categories tNoAge "Age_Group" "QC" = tNoAge ∧
    analyze_age_distribution tNoAge "Age_Group" =
      Except.error ("KeyError: " ++ "Age_Group") :=
  ⟨by decide,
   missing_column_behavior.1 tNoAge "Age_Group" "AG" (by decide),
   missing_column_behavior.2.1 tNoAge "Age_Group" "QC" (by decide),
   missing_column_behavior.2.2 tNoAge "Age_Group" (by decide)⟩

